import Mathlib

/-!
Verification of the COVID-19 data tracker pipeline (`finalproject3.py`).

The program is a linear pandas pipeline: load a CSV table, clean it
(country filter → date parse → sort → drop rows missing critical values →
forward/backward gap-fill), derive a `death_rate` column, and render charts.

We embed the table shallowly: a table is a list of rows; every cell that may
be missing (pandas `NaN`) is an `Option`.  Dates are modelled as already
parsed integer day ordinals (`pd.to_datetime` on the `date` column is the
identity on parsed dates; every claim concerns tables whose dates are
calendar values, and parsing is idempotent).  Float arithmetic appears only
in the death-rate ratio, where the possible IEEE outcomes (finite, +inf,
-inf, NaN) are modelled exactly by the inductive `FVal`; everywhere else the
program moves cell values around without arithmetic, so cells are exact
rationals.
-/

namespace Covid

/-- A row of the dataset, with the columns the program touches.
`death_rate` is `none` until `calculate_and_plot_death_rate` adds the
column (pandas `df['death_rate'] = ...`). -/
structure Row where
  location : String
  date : Option Int
  total_cases : Option ℚ
  total_deaths : Option ℚ
  total_vaccinations : Option ℚ
  new_cases_smoothed : Option ℚ
  people_vaccinated_per_hundred : Option ℚ
  death_rate : Option ℚ := none
deriving DecidableEq, Repr

abbrev Table := List Row

/-- `countries_of_interest = ['United States', 'India', 'Canada']` (line 58). -/
def countries_of_interest : List String := [ "United States", "India", "Canada" ]

/-- The row filter `df['location'].isin(countries_of_interest)` (line 59). -/
def in_countries (r : Row) : Bool := decide (r.location ∈ countries_of_interest)

/-- Strict lexicographic comparison of strings by Unicode code point,
character by character — the order in which pandas compares the Python
strings of the `location` column. -/
def strLTB : List Char → List Char → Bool
  | [], [] => false
  | [], _ :: _ => true
  | _ :: _, [] => false
  | a :: as, b :: bs =>
      if a.toNat < b.toNat then true
      else if b.toNat < a.toNat then false
      else strLTB as bs

/-- Strict order on the `location` column. -/
def locLTB (a b : String) : Bool := strLTB a.data b.data

/-- Comparison on the `date` column used by `sort_values`: pandas places
missing dates (`NaT`) last (`na_position='last'`). -/
def dateLEB : Option Int → Option Int → Bool
  | some a, some b => decide (a ≤ b)
  | none, some _ => false
  | _, none => true

/-- The sort key of `df.sort_values(by=['location', 'date'])` (line 65):
lexicographic, location ascending then date ascending. -/
def rowLE (a b : Row) : Prop :=
  locLTB a.location b.location = true ∨
    (a.location = b.location ∧ dateLEB a.date b.date = true)

instance : DecidableRel rowLE := fun a b => by unfold rowLE; infer_instance

/-- `dropna(subset=['date','total_cases','total_deaths','total_vaccinations'])`
keeps exactly the rows satisfying this predicate (line 70). -/
def has_critical_values (r : Row) : Bool :=
  r.date.isSome && r.total_cases.isSome && r.total_deaths.isSome &&
    r.total_vaccinations.isSome

/-- One pass of `fillna(method='ffill')` over a column, carrying the last
non-missing value seen so far. -/
def ffillAux {α : Type} (last : Option α) : List (Option α) → List (Option α)
  | [] => []
  | none :: xs => last :: ffillAux last xs
  | some v :: xs => some v :: ffillAux (some v) xs

/-- `fillna(method='ffill')` on one column. -/
def ffill {α : Type} (l : List (Option α)) : List (Option α) := ffillAux none l

/-- `fillna(method='bfill')` on one column: forward fill run backwards. -/
def bfill {α : Type} (l : List (Option α)) : List (Option α) :=
  (ffill l.reverse).reverse

/-- The gap-fill of line 76 on one column: forward fill, then backward fill. -/
def fill_gaps {α : Type} (l : List (Option α)) : List (Option α) := bfill (ffill l)

/-- Carry left over after forward-filling a column: the last non-missing
value, or the initial carry when the column is all missing. -/
def fcarry {α : Type} (last : Option α) : List (Option α) → Option α
  | [] => last
  | none :: xs => fcarry last xs
  | some v :: xs => fcarry (some v) xs

/-- Write a column of values back into the table, cell by cell. -/
def set_column (set : Option ℚ → Row → Row) (col : List (Option ℚ))
    (t : Table) : Table :=
  List.zipWith set col t

/-- Gap-fill a single numeric column of the table. -/
def fill_field (get : Row → Option ℚ) (set : Option ℚ → Row → Row)
    (t : Table) : Table :=
  set_column set (fill_gaps (t.map get)) t

/-- Write one `total_cases` cell. -/
def set_tc (v : Option ℚ) (r : Row) : Row := { r with total_cases := v }

/-- Write one `total_deaths` cell. -/
def set_td (v : Option ℚ) (r : Row) : Row := { r with total_deaths := v }

/-- Write one `total_vaccinations` cell. -/
def set_tv (v : Option ℚ) (r : Row) : Row := { r with total_vaccinations := v }

/-- Write one `new_cases_smoothed` cell. -/
def set_ncs (v : Option ℚ) (r : Row) : Row := { r with new_cases_smoothed := v }

/-- Write one `people_vaccinated_per_hundred` cell. -/
def set_pv (v : Option ℚ) (r : Row) : Row :=
  { r with people_vaccinated_per_hundred := v }

/-- Line 76: `df[numeric_cols] = df[numeric_cols].fillna(method='ffill').fillna(method='bfill')`.
The numeric columns of the frame (`select_dtypes(include=['number'])`) are
the five rational-valued columns; `location` is object-typed and `date` is a
datetime, so neither is filled.  The frame-level fill acts on each column
independently, so it equals the composition of the per-column fills. -/
def fill_numeric (t : Table) : Table :=
  t |> fill_field Row.total_cases set_tc
    |> fill_field Row.total_deaths set_td
    |> fill_field Row.total_vaccinations set_tv
    |> fill_field Row.new_cases_smoothed set_ncs
    |> fill_field Row.people_vaccinated_per_hundred set_pv

/-- Lines 59-65 of `clean_data`: country filter, date parse (identity on the
already-parsed dates of the model), stable sort by (location, date). -/
def sorted_filtered (df : Table) : Table :=
  List.insertionSort rowLE (df.filter in_countries)

/-- The table after the `dropna` of line 70: the sorted, filtered table
with every row missing a critical value removed. -/
def dropna_filtered (df : Table) : Table :=
  (sorted_filtered df).filter has_critical_values

/-- The number the `print` on line 71 reports:
`initial_rows - len(df)` around the `dropna`. -/
def rows_dropped (df : Table) : Nat :=
  (sorted_filtered df).length - (dropna_filtered df).length

/-- `clean_data` (lines 52-79): filter to the three countries, parse dates,
sort by (location, date), drop rows missing a critical value, gap-fill the
numeric columns. -/
def clean_data (df : Table) : Table :=
  fill_numeric (dropna_filtered df)

/-! ### Death rate (`calculate_and_plot_death_rate`, lines 129-148)

`df['total_deaths'] / df['total_cases']` is IEEE float division on two
columns: a missing operand gives NaN, `x / 0` gives `+inf` (x > 0), `-inf`
(x < 0) or NaN (x = 0); no exception is ever raised.  `FVal` models the
four possible outcomes exactly. -/

/-- Outcome of one float cell operation: finite value, infinity, or NaN. -/
inductive FVal where
  | num (q : ℚ)
  | pinf
  | ninf
  | nan
deriving DecidableEq, Repr

/-- Element-wise float division of two columns with missing values
(pandas semantics of `df['total_deaths'] / df['total_cases']`, line 135). -/
def fdiv : Option ℚ → Option ℚ → FVal
  | some a, some b =>
      if b = 0 then (if 0 < a then .pinf else if a < 0 then .ninf else .nan)
      else .num (a / b)
  | _, _ => .nan

/-- `* 100` on the ratio (line 135); a positive finite factor keeps the
sign of infinities and NaN is absorbing. -/
def fmul100 : FVal → FVal
  | .num q => .num (q * 100)
  | .pinf => .pinf
  | .ninf => .ninf
  | .nan => .nan

/-- Line 137 `replace([inf, -inf], NA)` followed by viewing the float cell
as a fillable cell: infinities become missing, NaN is already missing for
`fillna`, finite values stay. -/
def replace_nonfinite : FVal → Option ℚ
  | .num q => some q
  | .pinf => none
  | .ninf => none
  | .nan => none

/-- The raw death-rate cell of a row after line 135 and the replace of
line 137: `some q` iff the ratio is finite. -/
def raw_death_rate (r : Row) : Option ℚ :=
  replace_nonfinite (fmul100 (fdiv r.total_deaths r.total_cases))

/-- The final `death_rate` column (line 138):
`fillna(method='ffill').fillna(0)` over the raw column — every cell of the
result is a plain rational, never NaN, inf or an error. -/
def death_rate_column (df : Table) : List ℚ :=
  (ffill (df.map raw_death_rate)).map (fun o => o.getD 0)

/-- `calculate_and_plot_death_rate` (lines 129-148) as a table transformer:
it adds the `death_rate` column in place (the chart rendering does not
change the table). -/
def calculate_and_plot_death_rate (df : Table) : Table :=
  List.zipWith (fun q r => { r with death_rate := some q }) (death_rate_column df) df

/-! ### Vaccination comparison (`compare_vaccinated_population`, lines 166-188) -/

/-- Maximum of a list of integers, `none` on the empty list. -/
def list_max : List Int → Option Int
  | [] => none
  | x :: xs => match list_max xs with
    | none => some x
    | some m => some (max x m)

/-- The (present) dates of the rows of one location group. -/
def group_dates (df : Table) (loc : String) : List Int :=
  (df.filter (fun r => decide (r.location = loc))).filterMap Row.date

/-- `df.loc[df.groupby('location')['date'].idxmax()]` restricted to one
group (line 173): the first row of the group whose date is the group
maximum (`idxmax` returns the first index attaining the maximum). -/
def latest_row (df : Table) (loc : String) : Option Row :=
  match list_max (group_dates df loc) with
  | none => none
  | some m => df.find? (fun r => decide (r.location = loc) && decide (r.date = some m))

/-- The distinct locations of the table, ascending (`groupby` sorts its
keys). -/
def distinct_locations (df : Table) : List String :=
  List.insertionSort (fun a b => locLTB b a = false) (df.map Row.location).dedup

/-- `latest_data` of line 173: one row per distinct location, the row with
that location's maximum date. -/
def latest_data (df : Table) : Table :=
  (distinct_locations df).filterMap (latest_row df)

/-- Line 176: `latest_data.dropna(subset=['people_vaccinated_per_hundred'])`. -/
def latest_with_vax (df : Table) : Table :=
  (latest_data df).filter (fun r => r.people_vaccinated_per_hundred.isSome)

/-- The categories and heights of the rendered bar chart (line 180):
one bar per surviving location. -/
def vax_bars (df : Table) : List (String × ℚ) :=
  (latest_with_vax df).map
    (fun r => (r.location, r.people_vaccinated_per_hundred.getD 0))

/-- The message printed when no location survives the drop (line 188). -/
def no_vax_msg : String :=
  "No vaccination data available for comparison after cleaning."

/-- `compare_vaccinated_population` (lines 166-188): renders the bar chart
when at least one location survives, otherwise skips rendering and reports
a message.  Total — it never raises. -/
def compare_vaccinated_population (df : Table) : Except String (List (String × ℚ)) :=
  if (latest_with_vax df).isEmpty then Except.error no_vax_msg
  else Except.ok (vax_bars df)

/-! ### Loading (`load_data_from_upload`, lines 10-35)

An uploaded file is modelled by its name together with the outcome of
decoding and parsing its bytes (`pd.read_csv(io.StringIO(....decode('utf-8')))`):
`Except.ok` a table, or `Except.error` the exception message the parse
would raise. -/

/-- The `.csv` extension of line 19. -/
def csv_ext : String := ".csv"

/-- The extension test of line 19, `fn.endswith('.csv')`: the characters of
`'.csv'` are a suffix of the characters of the file name. -/
def ends_with_csv (fn : String) : Bool := csv_ext.data.isSuffixOf fn.data

/-- Message of line 34. -/
def no_csv_msg : String :=
  "No CSV file found among uploaded files. Please upload a CSV."

/-- Message of line 31 (the caught exception, reported). -/
def load_err_msg (e : String) : String := "Error loading file: " ++ e

/-- Message of line 28. -/
def load_ok_msg (fn : String) : String :=
  "Data " ++ fn ++ " loaded successfully!"

/-- `load_data_from_upload` (lines 10-35): scan the uploaded file names for
the first one ending in `.csv`; if none, report and return the absent-table
sentinel; otherwise parse it, catching a parse error and reporting it
instead of crashing. -/
def load_data_from_upload (uploaded : List (String × Except String Table)) :
    Option Table × String :=
  match uploaded.find? (fun p => ends_with_csv p.fst) with
  | some (fn, Except.ok df) => (some df, load_ok_msg fn)
  | some (_, Except.error e) => (none, load_err_msg e)
  | none => (none, no_csv_msg)

/-! ### Main driver (lines 191-211)

The four pure chart renderers read the table and change nothing; the
driver threads the one shared table object through the chart calls, so the
in-place mutation by `calculate_and_plot_death_rate` is visible to the
generators called after it. -/

/-- `plot_total_cases` renders a line chart; the table is unchanged. -/
def plot_total_cases (df : Table) : Table := df

/-- `plot_total_deaths` renders a line chart; the table is unchanged. -/
def plot_total_deaths (df : Table) : Table := df

/-- `compare_daily_new_cases` renders a line chart; the table is unchanged. -/
def compare_daily_new_cases (df : Table) : Table := df

/-- `plot_cumulative_vaccinations` renders a line chart; the table is
unchanged. -/
def plot_cumulative_vaccinations (df : Table) : Table := df

/-- The table state threaded through the six chart calls of lines 204-209;
the result is the state in which `compare_vaccinated_population` sees the
shared table. -/
def run_charts (df : Table) : Table :=
  plot_cumulative_vaccinations
    (calculate_and_plot_death_rate
      (compare_daily_new_cases (plot_total_deaths (plot_total_cases df))))

/-- Message of line 211. -/
def empty_cleaned_msg : String := "Cleaned data is empty. No plots can be generated."

/-- Lines 203-211: if the cleaned table is empty, every chart is skipped
and a message is reported; otherwise the charts run on the shared table.
Returns the reported messages and the final table state. -/
def main_after_clean (cleaned : Table) : List String × Table :=
  if cleaned.isEmpty then ([ empty_cleaned_msg ], cleaned)
  else ([], run_charts cleaned)


/-- The sort key of a row, as a pair. -/
def row_key (r : Row) : String × Option Int := (r.location, r.date)

/-- `rowLE` seen on sort keys. -/
def keyLE (x y : String × Option Int) : Prop :=
  locLTB x.1 y.1 = true ∨ (x.1 = y.1 ∧ dateLEB x.2 y.2 = true)

/-! ### Example rows

Concrete rows used to instantiate the theorems below on concrete tables. -/

/-- A Canada row: positive case and death counts, smoothed new cases
missing, vaccination percentage present. -/
def canada_row : Row :=
  { location := "Canada", date := some 0, total_cases := some 10,
    total_deaths := some 1, total_vaccinations := some 5,
    new_cases_smoothed := none, people_vaccinated_per_hundred := some 30 }

/-- An India row on its first (and only) date, with zero cases and deaths. -/
def india_row : Row :=
  { location := "India", date := some 0, total_cases := some 0,
    total_deaths := some 0, total_vaccinations := some 2,
    new_cases_smoothed := some 1, people_vaccinated_per_hundred := none }

/-- A Brazil row: not on the allow-list, removed by the country filter. -/
def brazil_row : Row :=
  { location := "Brazil", date := some 0, total_cases := some 7,
    total_deaths := some 1, total_vaccinations := some 5,
    new_cases_smoothed := none, people_vaccinated_per_hundred := some 20 }

/-! ### The sort relation is total and transitive -/

lemma strLTB_trans : ∀ {a b c : List Char}, strLTB a b = true →
    strLTB b c = true → strLTB a c = true
  | [], _ :: _, _ :: _, _, _ => by simp [strLTB]
  | a :: as, b :: bs, c :: cs, h1, h2 => by
    simp only [strLTB] at h1 h2 ⊢
    split_ifs at h1 h2 ⊢ with hab hba hbc hcb hac hca
    all_goals first
      | rfl
      | omega
      | (exact strLTB_trans h1 h2)

lemma strLTB_eq_of_not_lt : ∀ {a b : List Char}, strLTB a b = false →
    strLTB b a = false → a = b
  | [], [], _, _ => rfl
  | [], _ :: _, h1, _ => by simp [strLTB] at h1
  | _ :: _, [], _, h2 => by simp [strLTB] at h2
  | a :: as, b :: bs, h1, h2 => by
    simp only [strLTB] at h1 h2
    by_cases hab : a.toNat < b.toNat
    · simp [hab] at h1
    · by_cases hba : b.toNat < a.toNat
      · simp [hba] at h2
      · simp only [hab, hba, if_false, if_neg] at h1 h2
        have hc : a = b := Char.ext (UInt32.ext (by
          simp only [Char.toNat] at hab hba; omega))
        rw [hc, strLTB_eq_of_not_lt h1 h2]

lemma locLTB_trans {a b c : String} (h1 : locLTB a b = true)
    (h2 : locLTB b c = true) : locLTB a c = true :=
  strLTB_trans h1 h2

lemma loc_eq_of_not_lt {a b : String} (h1 : locLTB a b = false)
    (h2 : locLTB b a = false) : a = b :=
  String.ext (strLTB_eq_of_not_lt h1 h2)

instance : IsTotal Row rowLE := by
  constructor
  intro a b
  rcases h1 : locLTB a.location b.location with _ | _
  · rcases h2 : locLTB b.location a.location with _ | _
    · have h := loc_eq_of_not_lt h1 h2
      rcases ha : a.date with _ | x <;> rcases hb : b.date with _ | y
      · exact Or.inl (Or.inr ⟨h, by simp [dateLEB, ha, hb]⟩)
      · exact Or.inr (Or.inr ⟨h.symm, by simp [dateLEB, ha, hb]⟩)
      · exact Or.inl (Or.inr ⟨h, by simp [dateLEB, ha, hb]⟩)
      · rcases Int.le_total x y with hxy | hxy
        · exact Or.inl (Or.inr ⟨h, by simp [dateLEB, ha, hb, hxy]⟩)
        · exact Or.inr (Or.inr ⟨h.symm, by simp [dateLEB, ha, hb, hxy]⟩)
    · exact Or.inr (Or.inl h2)
  · exact Or.inl (Or.inl h1)

lemma dateLEB_trans {a b c : Option Int} (h1 : dateLEB a b = true)
    (h2 : dateLEB b c = true) : dateLEB a c = true := by
  rcases a with _ | x <;> rcases b with _ | y <;> rcases c with _ | z <;>
    simp_all [dateLEB]
  omega

instance : IsTrans Row rowLE := by
  constructor
  rintro a b c (h1 | ⟨h1, d1⟩) (h2 | ⟨h2, d2⟩)
  · exact Or.inl (locLTB_trans h1 h2)
  · exact Or.inl (h2 ▸ h1)
  · exact Or.inl (h1 ▸ h2)
  · exact Or.inr ⟨h1.trans h2, dateLEB_trans d1 d2⟩

/-! ### Properties of the gap-fill -/

lemma ffillAux_length {α : Type} :
    ∀ (last : Option α) (l : List (Option α)), (ffillAux last l).length = l.length
  | _, [] => rfl
  | last, none :: xs => by simp [ffillAux, ffillAux_length last xs]
  | _, some v :: xs => by simp [ffillAux, ffillAux_length (some v) xs]

lemma fill_gaps_length {α : Type} (l : List (Option α)) :
    (fill_gaps l).length = l.length := by
  simp [fill_gaps, bfill, ffill, ffillAux_length]

lemma ffillAux_append {α : Type} :
    ∀ (last : Option α) (l₁ l₂ : List (Option α)),
      ffillAux last (l₁ ++ l₂) = ffillAux last l₁ ++ ffillAux (fcarry last l₁) l₂
  | _, [], l₂ => rfl
  | last, none :: xs, l₂ => by
      simp [ffillAux, fcarry, ffillAux_append last xs l₂]
  | _, some v :: xs, l₂ => by
      simp [ffillAux, fcarry, ffillAux_append (some v) xs l₂]

lemma ffillAux_some_carry {α : Type} :
    ∀ (v : α) (l : List (Option α)), ∀ x ∈ ffillAux (some v) l, x.isSome
  | v, [] => by simp [ffillAux]
  | v, none :: xs => by
      intro x hx
      rcases (List.mem_cons).mp hx with h | h
      · simp [h]
      · exact ffillAux_some_carry v xs x h
  | v, some w :: xs => by
      intro x hx
      rcases (List.mem_cons).mp hx with h | h
      · simp [h]
      · exact ffillAux_some_carry w xs x h

lemma ffillAux_of_all_some {α : Type} :
    ∀ (last : Option α) (l : List (Option α)), (∀ x ∈ l, x.isSome) →
      ffillAux last l = l
  | _, [], _ => rfl
  | last, none :: xs, h => by simpa using h none (by simp)
  | _, some v :: xs, h => by
      simp [ffillAux, ffillAux_of_all_some (some v) xs (fun x hx => h x (by simp [hx]))]

lemma ffillAux_of_all_none {α : Type} :
    ∀ l : List (Option α), (∀ x ∈ l, x = none) → ffillAux none l = l
  | [], _ => rfl
  | none :: xs, h => by
      simp [ffillAux, ffillAux_of_all_none xs (fun x hx => h x (by simp [hx]))]
  | some v :: xs, h => by simpa using h (some v) (by simp)

lemma fill_gaps_of_all_some {α : Type} (l : List (Option α))
    (h : ∀ x ∈ l, x.isSome) : fill_gaps l = l := by
  unfold fill_gaps bfill ffill
  rw [ffillAux_of_all_some _ l h,
    ffillAux_of_all_some _ l.reverse (fun x hx => h x (List.mem_reverse.mp hx)),
    List.reverse_reverse]

lemma fill_gaps_of_all_none {α : Type} (l : List (Option α))
    (h : ∀ x ∈ l, x = none) : fill_gaps l = l := by
  unfold fill_gaps bfill ffill
  rw [ffillAux_of_all_none l h,
    ffillAux_of_all_none l.reverse (fun x hx => h x (List.mem_reverse.mp hx)),
    List.reverse_reverse]

/-- A column with at least one present value is fully populated after
forward fill then backward fill. -/
lemma fill_gaps_all_some {α : Type} (l : List (Option α))
    (h : ∃ x ∈ l, x.isSome) : ∀ y ∈ fill_gaps l, y.isSome := by
  obtain ⟨x, hx, hs⟩ := h
  obtain ⟨v, rfl⟩ := Option.isSome_iff_exists.mp hs
  obtain ⟨s, t, rfl⟩ := List.append_of_mem hx
  have hff : ffill (s ++ some v :: t) =
      ffillAux none s ++ some v :: ffillAux (some v) t := by
    rw [ffill, ffillAux_append]
    rfl
  unfold fill_gaps
  rw [hff]
  have hrev : (ffillAux none s ++ some v :: ffillAux (some v) t).reverse =
      (ffillAux (some v) t).reverse ++
        some v :: (ffillAux (none : Option α) s).reverse := by
    simp
  unfold bfill ffill
  rw [hrev, ffillAux_append,
    ffillAux_of_all_some _ _
      (fun x hx => ffillAux_some_carry v t x (List.mem_reverse.mp hx))]
  intro y hy
  rcases List.mem_reverse.mp hy with hy'
  rcases (List.mem_append).mp hy' with h1 | h1
  · exact ffillAux_some_carry v t y (List.mem_reverse.mp h1)
  · rcases (List.mem_cons).mp h1 with h2 | h2
    · simp [h2]
    · exact ffillAux_some_carry v _ y h2

lemma all_none_of_no_some {α : Type} {l : List (Option α)}
    (h : ¬ ∃ x ∈ l, x.isSome) : ∀ x ∈ l, x = none := by
  push_neg at h
  intro x hx
  rcases x with _ | v
  · rfl
  · simpa using h (some v) hx

/-- The gap-fill is idempotent on every column. -/
lemma fill_gaps_idem {α : Type} (l : List (Option α)) :
    fill_gaps (fill_gaps l) = fill_gaps l := by
  by_cases h : ∃ x ∈ l, x.isSome
  · exact fill_gaps_of_all_some _ (fill_gaps_all_some l h)
  · have h0 := all_none_of_no_some h
    rw [fill_gaps_of_all_none l h0, fill_gaps_of_all_none l h0]

lemma exists_some_of_fill_gaps {α : Type} {l : List (Option α)}
    (h : ∃ y ∈ fill_gaps l, y.isSome) : ∃ x ∈ l, x.isSome := by
  by_contra hc
  rw [fill_gaps_of_all_none l (all_none_of_no_some hc)] at h
  exact hc h

/-- Position `i` of a forward-filled column is the initial carry when every
cell up to and including `i` is missing. -/
lemma ffillAux_getElem?_of_none_before {α : Type} :
    ∀ (l : List (Option α)) (last : Option α) (i : Nat),
      (∀ j s, j < i → l[j]? = some s → s = none) → l[i]? = some none →
      (ffillAux last l)[i]? = some last
  | [], _, i, _, hi => by simp at hi
  | x :: xs, last, 0, _, hi => by
      simp only [List.getElem?_cons_zero, Option.some.injEq] at hi
      subst hi
      simp [ffillAux]
  | x :: xs, last, i + 1, h, hi => by
      have hx : x = none := h 0 x (Nat.succ_pos i) (by simp)
      subst hx
      simpa [ffillAux] using
        ffillAux_getElem?_of_none_before xs last i
          (fun j s hj hs => h (j + 1) s (by omega) (by simpa using hs))
          (by simpa using hi)

/-! ### Column algebra for the table-level fill -/

lemma map_zipWith_of_right {α β γ : Type} (f : α → γ → γ) (g : γ → β)
    (h : ∀ v r, g (f v r) = g r) :
    ∀ (col : List α) (t : List γ), col.length = t.length →
      (List.zipWith f col t).map g = t.map g
  | [], [], _ => rfl
  | [], _ :: _, hlen => by simp at hlen
  | _ :: _, [], hlen => by simp at hlen
  | v :: col, r :: t, hlen => by
      simp [List.zipWith, h, map_zipWith_of_right f g h col t (by simpa using hlen)]

lemma map_zipWith_of_left {α β γ : Type} (f : α → γ → γ) (g : γ → β) (k : α → β)
    (h : ∀ v r, g (f v r) = k v) :
    ∀ (col : List α) (t : List γ), col.length = t.length →
      (List.zipWith f col t).map g = col.map k
  | [], [], _ => rfl
  | [], _ :: _, hlen => by simp at hlen
  | _ :: _, [], hlen => by simp at hlen
  | v :: col, r :: t, hlen => by
      simp [List.zipWith, h, map_zipWith_of_left f g k h col t (by simpa using hlen)]

lemma zipWith_set_self {α γ : Type} (f : α → γ → γ) (get : γ → α)
    (h : ∀ r, f (get r) r = r) :
    ∀ t : List γ, List.zipWith f (t.map get) t = t
  | [] => rfl
  | r :: t => by simp [List.zipWith, h, zipWith_set_self f get h t]

lemma map_fill_field_other (get : Row → Option ℚ) (set : Option ℚ → Row → Row)
    {β : Type} (g : Row → β) (h : ∀ v r, g (set v r) = g r) (t : Table) :
    (fill_field get set t).map g = t.map g :=
  map_zipWith_of_right set g h _ t (by simp [fill_gaps_length])

lemma map_fill_field_self (get : Row → Option ℚ) (set : Option ℚ → Row → Row)
    (h : ∀ v r, get (set v r) = v) (t : Table) :
    (fill_field get set t).map get = fill_gaps (t.map get) := by
  rw [fill_field, set_column,
    map_zipWith_of_left set get id h _ t (by simp [fill_gaps_length]),
    List.map_id]

lemma fill_field_eq_self (get : Row → Option ℚ) (set : Option ℚ → Row → Row)
    (hs : ∀ r, set (get r) r = r) {t : Table}
    (hfix : fill_gaps (t.map get) = t.map get) : fill_field get set t = t := by
  rw [fill_field, set_column, hfix, zipWith_set_self set get hs t]

lemma length_fill_field (get : Row → Option ℚ) (set : Option ℚ → Row → Row)
    (t : Table) : (fill_field get set t).length = t.length := by
  simp [fill_field, set_column, fill_gaps_length]

/-! ### Columns of `fill_numeric` -/

lemma length_fill_numeric (t : Table) : (fill_numeric t).length = t.length := by
  unfold fill_numeric
  simp [length_fill_field]

lemma map_tc_fill_numeric (t : Table) :
    (fill_numeric t).map Row.total_cases = fill_gaps (t.map Row.total_cases) := by
  unfold fill_numeric
  rw [map_fill_field_other Row.people_vaccinated_per_hundred set_pv Row.total_cases (fun v r => rfl),
    map_fill_field_other Row.new_cases_smoothed set_ncs Row.total_cases (fun v r => rfl),
    map_fill_field_other Row.total_vaccinations set_tv Row.total_cases (fun v r => rfl),
    map_fill_field_other Row.total_deaths set_td Row.total_cases (fun v r => rfl),
    map_fill_field_self Row.total_cases set_tc (fun v r => rfl)]


lemma map_td_fill_numeric (t : Table) :
    (fill_numeric t).map Row.total_deaths = fill_gaps (t.map Row.total_deaths) := by
  unfold fill_numeric
  rw [map_fill_field_other Row.people_vaccinated_per_hundred set_pv Row.total_deaths (fun v r => rfl),
    map_fill_field_other Row.new_cases_smoothed set_ncs Row.total_deaths (fun v r => rfl),
    map_fill_field_other Row.total_vaccinations set_tv Row.total_deaths (fun v r => rfl),
    map_fill_field_self Row.total_deaths set_td (fun v r => rfl),
    map_fill_field_other Row.total_cases set_tc Row.total_deaths (fun v r => rfl)]


lemma map_tv_fill_numeric (t : Table) :
    (fill_numeric t).map Row.total_vaccinations = fill_gaps (t.map Row.total_vaccinations) := by
  unfold fill_numeric
  rw [map_fill_field_other Row.people_vaccinated_per_hundred set_pv Row.total_vaccinations (fun v r => rfl),
    map_fill_field_other Row.new_cases_smoothed set_ncs Row.total_vaccinations (fun v r => rfl),
    map_fill_field_self Row.total_vaccinations set_tv (fun v r => rfl),
    map_fill_field_other Row.total_deaths set_td Row.total_vaccinations (fun v r => rfl),
    map_fill_field_other Row.total_cases set_tc Row.total_vaccinations (fun v r => rfl)]


lemma map_ncs_fill_numeric (t : Table) :
    (fill_numeric t).map Row.new_cases_smoothed = fill_gaps (t.map Row.new_cases_smoothed) := by
  unfold fill_numeric
  rw [map_fill_field_other Row.people_vaccinated_per_hundred set_pv Row.new_cases_smoothed (fun v r => rfl),
    map_fill_field_self Row.new_cases_smoothed set_ncs (fun v r => rfl),
    map_fill_field_other Row.total_vaccinations set_tv Row.new_cases_smoothed (fun v r => rfl),
    map_fill_field_other Row.total_deaths set_td Row.new_cases_smoothed (fun v r => rfl),
    map_fill_field_other Row.total_cases set_tc Row.new_cases_smoothed (fun v r => rfl)]


lemma map_pv_fill_numeric (t : Table) :
    (fill_numeric t).map Row.people_vaccinated_per_hundred = fill_gaps (t.map Row.people_vaccinated_per_hundred) := by
  unfold fill_numeric
  rw [map_fill_field_self Row.people_vaccinated_per_hundred set_pv (fun v r => rfl),
    map_fill_field_other Row.new_cases_smoothed set_ncs Row.people_vaccinated_per_hundred (fun v r => rfl),
    map_fill_field_other Row.total_vaccinations set_tv Row.people_vaccinated_per_hundred (fun v r => rfl),
    map_fill_field_other Row.total_deaths set_td Row.people_vaccinated_per_hundred (fun v r => rfl),
    map_fill_field_other Row.total_cases set_tc Row.people_vaccinated_per_hundred (fun v r => rfl)]

/-- The sort key of a row: the gap-fill never touches `location` or `date`. -/
lemma map_key_fill_numeric (t : Table) :
    (fill_numeric t).map (fun r => (r.location, r.date)) =
      t.map (fun r => (r.location, r.date)) := by
  unfold fill_numeric
  rw [map_fill_field_other Row.people_vaccinated_per_hundred set_pv (fun r => (r.location, r.date)) (fun v r => rfl),
    map_fill_field_other Row.new_cases_smoothed set_ncs (fun r => (r.location, r.date)) (fun v r => rfl),
    map_fill_field_other Row.total_vaccinations set_tv (fun r => (r.location, r.date)) (fun v r => rfl),
    map_fill_field_other Row.total_deaths set_td (fun r => (r.location, r.date)) (fun v r => rfl),
    map_fill_field_other Row.total_cases set_tc (fun r => (r.location, r.date)) (fun v r => rfl)]

lemma map_location_fill_numeric (t : Table) :
    (fill_numeric t).map Row.location = t.map Row.location := by
  unfold fill_numeric
  rw [map_fill_field_other Row.people_vaccinated_per_hundred set_pv Row.location (fun v r => rfl),
    map_fill_field_other Row.new_cases_smoothed set_ncs Row.location (fun v r => rfl),
    map_fill_field_other Row.total_vaccinations set_tv Row.location (fun v r => rfl),
    map_fill_field_other Row.total_deaths set_td Row.location (fun v r => rfl),
    map_fill_field_other Row.total_cases set_tc Row.location (fun v r => rfl)]

lemma map_date_fill_numeric (t : Table) :
    (fill_numeric t).map Row.date = t.map Row.date := by
  unfold fill_numeric
  rw [map_fill_field_other Row.people_vaccinated_per_hundred set_pv Row.date (fun v r => rfl),
    map_fill_field_other Row.new_cases_smoothed set_ncs Row.date (fun v r => rfl),
    map_fill_field_other Row.total_vaccinations set_tv Row.date (fun v r => rfl),
    map_fill_field_other Row.total_deaths set_td Row.date (fun v r => rfl),
    map_fill_field_other Row.total_cases set_tc Row.date (fun v r => rfl)]

/-- Transfer a row-level fact along an equality of column images. -/
lemma mem_map_transfer {β : Type} (g : Row → β) {t t' : Table}
    (h : t.map g = t'.map g) {r : Row} (hr : r ∈ t) : ∃ s ∈ t', g s = g r := by
  have hm : g r ∈ t'.map g := h ▸ List.mem_map_of_mem g hr
  obtain ⟨s, hs, he⟩ := List.mem_map.mp hm
  exact ⟨s, hs, he⟩

/-! ### Invariants of `clean_data` -/

lemma sorted_sorted_filtered (df : Table) :
    List.Pairwise rowLE (sorted_filtered df) :=
  List.sorted_insertionSort rowLE _

lemma sorted_dropna_filtered (df : Table) :
    List.Pairwise rowLE (dropna_filtered df) :=
  (sorted_sorted_filtered df).filter _

lemma mem_dropna_filtered {df : Table} {r : Row} (hr : r ∈ dropna_filtered df) :
    (r ∈ df.filter in_countries) ∧ has_critical_values r = true := by
  obtain ⟨hmem, hcrit⟩ := List.mem_filter.mp hr
  exact ⟨(List.mem_insertionSort rowLE).mp hmem, hcrit⟩

lemma dropna_critical {df : Table} {s : Row} (hs : s ∈ dropna_filtered df) :
    s.date.isSome ∧ s.total_cases.isSome ∧ s.total_deaths.isSome ∧
      s.total_vaccinations.isSome := by
  have h := (mem_dropna_filtered hs).2
  simp only [has_critical_values, Bool.and_eq_true] at h
  exact ⟨h.1.1.1, h.1.1.2, h.1.2, h.2⟩

lemma clean_tc_col (df : Table) :
    (clean_data df).map Row.total_cases =
      (dropna_filtered df).map Row.total_cases := by
  rw [clean_data, map_tc_fill_numeric]
  apply fill_gaps_of_all_some
  intro x hx
  obtain ⟨s, hs, he⟩ := List.mem_map.mp hx
  rw [← he]
  exact (dropna_critical hs).2.1

lemma clean_td_col (df : Table) :
    (clean_data df).map Row.total_deaths =
      (dropna_filtered df).map Row.total_deaths := by
  rw [clean_data, map_td_fill_numeric]
  apply fill_gaps_of_all_some
  intro x hx
  obtain ⟨s, hs, he⟩ := List.mem_map.mp hx
  rw [← he]
  exact (dropna_critical hs).2.2.1

lemma clean_tv_col (df : Table) :
    (clean_data df).map Row.total_vaccinations =
      (dropna_filtered df).map Row.total_vaccinations := by
  rw [clean_data, map_tv_fill_numeric]
  apply fill_gaps_of_all_some
  intro x hx
  obtain ⟨s, hs, he⟩ := List.mem_map.mp hx
  rw [← he]
  exact (dropna_critical hs).2.2.2

lemma clean_data_location {df : Table} {r : Row} (hr : r ∈ clean_data df) :
    r.location ∈ countries_of_interest := by
  have hmap : (clean_data df).map Row.location =
      (dropna_filtered df).map Row.location := map_location_fill_numeric _
  obtain ⟨s, hs, he⟩ := mem_map_transfer Row.location hmap hr
  obtain ⟨hf, _⟩ := mem_dropna_filtered hs
  obtain ⟨_, hc⟩ := List.mem_filter.mp hf
  rw [← he]
  exact of_decide_eq_true hc

lemma clean_data_critical {df : Table} {r : Row} (hr : r ∈ clean_data df) :
    r.date.isSome ∧ r.total_cases.isSome ∧ r.total_deaths.isSome ∧
      r.total_vaccinations.isSome := by
  obtain ⟨s1, hs1, he1⟩ :=
    mem_map_transfer Row.date (map_date_fill_numeric _) hr
  obtain ⟨s2, hs2, he2⟩ := mem_map_transfer Row.total_cases (clean_tc_col df) hr
  obtain ⟨s3, hs3, he3⟩ := mem_map_transfer Row.total_deaths (clean_td_col df) hr
  obtain ⟨s4, hs4, he4⟩ :=
    mem_map_transfer Row.total_vaccinations (clean_tv_col df) hr
  refine ⟨he1 ▸ (dropna_critical hs1).1, he2 ▸ (dropna_critical hs2).2.1,
    he3 ▸ (dropna_critical hs3).2.2.1, he4 ▸ (dropna_critical hs4).2.2.2⟩

lemma clean_data_sorted_aux (df : Table) :
    List.Pairwise rowLE (clean_data df) := by
  have hs : List.Pairwise (fun a b => keyLE (row_key a) (row_key b))
      (dropna_filtered df) := (sorted_dropna_filtered df).imp (fun h => h)
  have hkey : List.Pairwise keyLE ((clean_data df).map row_key) := by
    have hmap : (clean_data df).map row_key =
        (dropna_filtered df).map row_key := map_key_fill_numeric _
    rw [hmap]
    exact List.pairwise_map.mpr hs
  exact (List.pairwise_map.mp hkey).imp (fun h => h)

lemma clean_data_critical_bool {df : Table} {r : Row} (hr : r ∈ clean_data df) :
    has_critical_values r = true := by
  obtain ⟨h1, h2, h3, h4⟩ := clean_data_critical hr
  simp [has_critical_values, h1, h2, h3, h4]

/-! ### The claims about `clean_data` -/

/-- C4: every row of the table returned by `clean_data` has a location in
the three-country allow-list (United States, India, Canada); rows for any
other location are excluded. -/
theorem clean_data_allowlist_closure (df : Table) :
    ∀ r ∈ clean_data df, r.location ∈ countries_of_interest :=
  fun _ hr => clean_data_location hr

theorem clean_data_allowlist_closure_witness :
    (canada_row ∈ clean_data [ canada_row, brazil_row ]) ∧
      canada_row.location ∈ countries_of_interest :=
  ⟨by decide,
    clean_data_allowlist_closure [ canada_row, brazil_row ] canada_row (by decide)⟩

/-- C6: the rows of the table returned by `clean_data` are totally ordered
by the sort key: non-decreasing by location, with ties non-decreasing by
date. -/
theorem clean_data_totally_ordered (df : Table) :
    List.Pairwise rowLE (clean_data df) :=
  clean_data_sorted_aux df

/-- C5: no row of the table returned by `clean_data` is missing `date`,
`total_cases`, `total_deaths` or `total_vaccinations`; the reported count
of removed rows is exactly the number of sorted, filtered rows that had a
missing critical value. -/
theorem clean_data_no_missing_critical (df : Table) :
    (∀ r ∈ clean_data df, r.date.isSome ∧ r.total_cases.isSome ∧
      r.total_deaths.isSome ∧ r.total_vaccinations.isSome) ∧
    rows_dropped df =
      ((sorted_filtered df).filter (fun r => !has_critical_values r)).length := by
  constructor
  · exact fun _ hr => clean_data_critical hr
  · rw [rows_dropped, dropna_filtered]
    have h := List.length_eq_length_filter_add (l := sorted_filtered df) has_critical_values
    omega

theorem clean_data_no_missing_critical_witness :
    (canada_row ∈ clean_data [ canada_row ]) ∧
      (canada_row.date.isSome ∧ canada_row.total_cases.isSome ∧
        canada_row.total_deaths.isSome ∧ canada_row.total_vaccinations.isSome) :=
  ⟨by decide,
    (clean_data_no_missing_critical [ canada_row ]).1 canada_row (by decide)⟩

/-- C3: `clean_data` is idempotent — running it on its own output returns
the same table, and in particular the second run drops no rows. -/
theorem clean_data_idempotent (df : Table) :
    clean_data (clean_data df) = clean_data df := by
  have h1 : (clean_data df).filter in_countries = clean_data df :=
    List.filter_eq_self.mpr (fun r hr => decide_eq_true (clean_data_location hr))
  have h2 : List.insertionSort rowLE (clean_data df) = clean_data df :=
    List.Sorted.insertionSort_eq (clean_data_sorted_aux df)
  have h3 : (clean_data df).filter has_critical_values = clean_data df :=
    List.filter_eq_self.mpr (fun r hr => clean_data_critical_bool hr)
  have htc : fill_gaps ((clean_data df).map Row.total_cases) =
      (clean_data df).map Row.total_cases := by
    rw [clean_data, map_tc_fill_numeric]
    exact fill_gaps_idem _
  have htd : fill_gaps ((clean_data df).map Row.total_deaths) =
      (clean_data df).map Row.total_deaths := by
    rw [clean_data, map_td_fill_numeric]
    exact fill_gaps_idem _
  have htv : fill_gaps ((clean_data df).map Row.total_vaccinations) =
      (clean_data df).map Row.total_vaccinations := by
    rw [clean_data, map_tv_fill_numeric]
    exact fill_gaps_idem _
  have hncs : fill_gaps ((clean_data df).map Row.new_cases_smoothed) =
      (clean_data df).map Row.new_cases_smoothed := by
    rw [clean_data, map_ncs_fill_numeric]
    exact fill_gaps_idem _
  have hpv : fill_gaps ((clean_data df).map Row.people_vaccinated_per_hundred) =
      (clean_data df).map Row.people_vaccinated_per_hundred := by
    rw [clean_data, map_pv_fill_numeric]
    exact fill_gaps_idem _
  have h4 : fill_numeric (clean_data df) = clean_data df := by
    unfold fill_numeric
    rw [fill_field_eq_self Row.total_cases set_tc (fun r => rfl) htc,
      fill_field_eq_self Row.total_deaths set_td (fun r => rfl) htd,
      fill_field_eq_self Row.total_vaccinations set_tv (fun r => rfl) htv,
      fill_field_eq_self Row.new_cases_smoothed set_ncs (fun r => rfl) hncs,
      fill_field_eq_self Row.people_vaccinated_per_hundred set_pv (fun r => rfl) hpv]
  show fill_numeric (dropna_filtered (clean_data df)) = clean_data df
  rw [dropna_filtered, sorted_filtered, h1, h2, h3, h4]

/-- C2 (amended): after `clean_data`, a numeric non-critical column
(`new_cases_smoothed`, `people_vaccinated_per_hundred`) is fully populated
provided it holds at least one present value in the cleaned table; a column
that is missing in every row stays entirely missing, because forward fill
followed by backward fill has no value to propagate. -/
theorem numeric_columns_filled_amended (df : Table) :
    ((∃ r ∈ clean_data df, r.new_cases_smoothed.isSome) →
      ∀ r ∈ clean_data df, r.new_cases_smoothed.isSome) ∧
    ((∃ r ∈ clean_data df, r.people_vaccinated_per_hundred.isSome) →
      ∀ r ∈ clean_data df, r.people_vaccinated_per_hundred.isSome) := by
  constructor
  · intro h r hr
    have hcol : (clean_data df).map Row.new_cases_smoothed =
        fill_gaps ((dropna_filtered df).map Row.new_cases_smoothed) := by
      rw [clean_data, map_ncs_fill_numeric]
    obtain ⟨r0, hr0, hs0⟩ := h
    have hmem0 : r0.new_cases_smoothed ∈
        fill_gaps ((dropna_filtered df).map Row.new_cases_smoothed) := by
      rw [← hcol]
      exact List.mem_map_of_mem _ hr0
    have hall := fill_gaps_all_some _ (exists_some_of_fill_gaps ⟨_, hmem0, hs0⟩)
    have hmem : r.new_cases_smoothed ∈
        fill_gaps ((dropna_filtered df).map Row.new_cases_smoothed) := by
      rw [← hcol]
      exact List.mem_map_of_mem _ hr
    exact hall _ hmem
  · intro h r hr
    have hcol : (clean_data df).map Row.people_vaccinated_per_hundred =
        fill_gaps ((dropna_filtered df).map Row.people_vaccinated_per_hundred) := by
      rw [clean_data, map_pv_fill_numeric]
    obtain ⟨r0, hr0, hs0⟩ := h
    have hmem0 : r0.people_vaccinated_per_hundred ∈
        fill_gaps ((dropna_filtered df).map Row.people_vaccinated_per_hundred) := by
      rw [← hcol]
      exact List.mem_map_of_mem _ hr0
    have hall := fill_gaps_all_some _ (exists_some_of_fill_gaps ⟨_, hmem0, hs0⟩)
    have hmem : r.people_vaccinated_per_hundred ∈
        fill_gaps ((dropna_filtered df).map Row.people_vaccinated_per_hundred) := by
      rw [← hcol]
      exact List.mem_map_of_mem _ hr
    exact hall _ hmem

theorem numeric_columns_filled_amended_witness :
    (∃ r ∈ clean_data [ canada_row ], r.people_vaccinated_per_hundred.isSome) ∧
      (∀ r ∈ clean_data [ canada_row ], r.people_vaccinated_per_hundred.isSome) :=
  ⟨by decide, (numeric_columns_filled_amended [ canada_row ]).2 (by decide)⟩

/-- C2 fails as stated: `canada_row` is kept by `clean_data` with its
`new_cases_smoothed` still missing — a numeric non-critical column of the
cleaned table is not fully populated when it had no value to propagate. -/
theorem numeric_columns_filled_counterexample :
    canada_row ∈ clean_data [ canada_row ] ∧
      canada_row.new_cases_smoothed = none := by
  constructor
  · decide
  · rfl

/-- C8: when the country filter removes every row, `clean_data` still
returns the empty table (no error), and the main driver reports a message
and skips every chart generator. -/
theorem empty_filter_skips_charts (df : Table)
    (h : df.filter in_countries = []) :
    clean_data df = [] ∧
      main_after_clean (clean_data df) = ([ empty_cleaned_msg ], []) := by
  have h0 : clean_data df = [] := by
    rw [clean_data, dropna_filtered, sorted_filtered, h]
    rfl
  rw [h0]
  exact ⟨rfl, rfl⟩

theorem empty_filter_skips_charts_witness :
    ([ brazil_row ].filter in_countries = []) ∧
      (clean_data [ brazil_row ] = [] ∧
        main_after_clean (clean_data [ brazil_row ]) =
          ([ empty_cleaned_msg ], [])) :=
  ⟨by decide, empty_filter_skips_charts [ brazil_row ] (by decide)⟩

/-! ### The death-rate claims -/

lemma death_rate_column_length (df : Table) :
    (death_rate_column df).length = df.length := by
  simp [death_rate_column, ffill, ffillAux_length]

/-- C1 (amended): the death-rate computation is total — division by zero
yields an infinite or NaN cell, never an error, and after the replace,
forward-fill and default steps every row's `death_rate` is a plain finite
number.  A row with `total_cases` = 0 and `total_deaths` = 0 resolves to 0
exactly when no earlier row of the whole table has a finite raw ratio;
otherwise the forward fill copies the nearest preceding finite rate, which
can cross location boundaries because the fill is not grouped by location. -/
theorem death_rate_resolution (df : Table) :
    (∀ r ∈ calculate_and_plot_death_rate df, r.death_rate.isSome) ∧
    (∀ (i : Nat) (r : Row), df[i]? = some r → r.total_cases = some 0 →
      r.total_deaths = some 0 →
      (∀ (j : Nat) (s : Row), j < i → df[j]? = some s → raw_death_rate s = none) →
      (death_rate_column df)[i]? = some 0) := by
  constructor
  · intro r hr
    have hmap : (calculate_and_plot_death_rate df).map Row.death_rate =
        (death_rate_column df).map some :=
      map_zipWith_of_left _ Row.death_rate some (fun v r => rfl) _ df
        (death_rate_column_length df)
    have hm : r.death_rate ∈ (death_rate_column df).map some := by
      rw [← hmap]
      exact List.mem_map_of_mem _ hr
    obtain ⟨q, _, he⟩ := List.mem_map.mp hm
    simp [← he]
  · intro i r hdf htc htd hprev
    have hraw : raw_death_rate r = none := by
      simp [raw_death_rate, fdiv, htc, htd, fmul100, replace_nonfinite]
    have hcol_i : (df.map raw_death_rate)[i]? = some none := by
      rw [List.getElem?_map, hdf]
      exact congrArg some hraw
    have hcol_j : ∀ j s, j < i → (df.map raw_death_rate)[j]? = some s →
        s = none := by
      intro j s hj hs
      rw [List.getElem?_map] at hs
      rcases hu : df[j]? with _ | u
      · rw [hu] at hs
        simp at hs
      · rw [hu] at hs
        have hs' : raw_death_rate u = s := Option.some.inj hs
        rw [← hs']
        exact hprev j u hj hu
    have hff := ffillAux_getElem?_of_none_before (df.map raw_death_rate) none i
      hcol_j hcol_i
    rw [death_rate_column, List.getElem?_map]
    rw [ffill] at *
    rw [hff]
    rfl

theorem death_rate_resolution_witness :
    (([ india_row ] : Table)[0]? = some india_row) ∧
      india_row.total_cases = some 0 ∧ india_row.total_deaths = some 0 ∧
      (death_rate_column [ india_row ])[0]? = some 0 :=
  ⟨rfl, rfl, rfl,
    (death_rate_resolution [ india_row ]).2 0 india_row rfl rfl rfl
      (fun j _ hj _ => absurd hj (Nat.not_lt_zero j))⟩

/-- C1 fails as stated: in the two-row table `[canada_row, india_row]`,
row 1 is the first (and only) date of its location with zero cases and
zero deaths, yet its `death_rate` resolves to 10, not 0 — the table-wide
forward fill copies Canada's preceding finite rate across the location
boundary. -/
theorem death_rate_counterexample :
    (([ canada_row, india_row ] : Table)[1]? = some india_row) ∧
      india_row.total_cases = some 0 ∧ india_row.total_deaths = some 0 ∧
      india_row.location ≠ canada_row.location ∧
      (death_rate_column [ canada_row, india_row ])[1]? = some 10 ∧
      (10 : ℚ) ≠ 0 := by
  refine ⟨rfl, rfl, rfl, by decide, ?_, by norm_num⟩
  norm_num [death_rate_column, ffill, ffillAux, raw_death_rate, fdiv, fmul100,
    replace_nonfinite, canada_row, india_row]

/-! ### The loading claim -/

/-- C9: `load_data_from_upload` returns the absent-table sentinel together
with a reported message in exactly two cases — no uploaded name ends in
`.csv`, or the first `.csv` file fails to decode/parse (the error is caught
and reported, never propagated) — and otherwise returns the parsed table. -/
theorem load_data_failure_modes (u : List (String × Except String Table)) :
    ((∀ p ∈ u, ends_with_csv p.fst = false) →
      load_data_from_upload u = (none, no_csv_msg)) ∧
    (∀ (fn e : String),
      u.find? (fun p => ends_with_csv p.fst) = some (fn, Except.error e) →
      load_data_from_upload u = (none, load_err_msg e)) ∧
    (∀ (fn : String) (t : Table),
      u.find? (fun p => ends_with_csv p.fst) = some (fn, Except.ok t) →
      load_data_from_upload u = (some t, load_ok_msg fn)) ∧
    ((load_data_from_upload u).fst = none ↔
      u.find? (fun p => ends_with_csv p.fst) = none ∨
        ∃ fn e, u.find? (fun p => ends_with_csv p.fst) =
          some (fn, Except.error e)) := by
  refine ⟨?_, ?_, ?_, ?_⟩
  · intro h
    have hf : u.find? (fun p => ends_with_csv p.fst) = none :=
      List.find?_eq_none.mpr (fun p hp => by simp [h p hp])
    simp [load_data_from_upload, hf]
  · intro fn e hf
    simp [load_data_from_upload, hf]
  · intro fn t hf
    simp [load_data_from_upload, hf]
  · rcases hf : u.find? (fun p => ends_with_csv p.fst) with _ | ⟨fn, res⟩
    · simp [load_data_from_upload, hf]
    · rcases res with e | t
      · simp [load_data_from_upload, hf]
      · simp [load_data_from_upload, hf]

theorem load_data_failure_modes_witness :
    (∀ p ∈ ([ ("notes.txt", Except.ok ([] : Table)) ] :
        List (String × Except String Table)), ends_with_csv p.fst = false) ∧
      load_data_from_upload [ ("notes.txt", Except.ok ([] : Table)) ] =
        (none, no_csv_msg) :=
  ⟨by decide, (load_data_failure_modes _).1 (by decide)⟩

/-! ### The frame-effect claim -/

lemma getElem?_zipWith_some {α β γ : Type} (f : α → β → γ) :
    ∀ (as : List α) (bs : List β) (i : Nat) (a : α) (b : β),
      as[i]? = some a → bs[i]? = some b →
      (List.zipWith f as bs)[i]? = some (f a b)
  | [], _, _, _, _, ha, _ => by simp at ha
  | _ :: _, [], _, _, _, _, hb => by simp at hb
  | x :: as, y :: bs, 0, a, b, ha, hb => by
      have hxa : x = a := Option.some.inj (by simpa using ha)
      have hyb : y = b := Option.some.inj (by simpa using hb)
      simp [List.zipWith, hxa, hyb]
  | x :: as, y :: bs, i + 1, a, b, ha, hb => by
      simp only [List.getElem?_cons_succ] at ha hb
      simpa [List.zipWith] using getElem?_zipWith_some f as bs i a b ha hb

/-- C10: `calculate_and_plot_death_rate` mutates the shared table in place,
adding the `death_rate` column; the table state the later chart generators
receive is exactly its output, in which every row keeps all its
pre-existing columns unchanged and gains a present `death_rate`. -/
theorem death_rate_added_in_place (df : Table) :
    run_charts df = calculate_and_plot_death_rate df ∧
    ∀ (i : Nat) (r : Row), df[i]? = some r → ∃ q : ℚ,
      (run_charts df)[i]? = some { r with death_rate := some q } := by
  constructor
  · rfl
  · intro i r hr
    have hi : i < df.length := by
      by_contra h
      rw [List.getElem?_eq_none (by omega)] at hr
      exact Option.noConfusion hr
    have hilen : i < (death_rate_column df).length := by
      rw [death_rate_column_length]
      exact hi
    refine ⟨(death_rate_column df)[i], ?_⟩
    show (List.zipWith _ (death_rate_column df) df)[i]? = _
    exact getElem?_zipWith_some _ _ _ i _ r
      (List.getElem?_eq_getElem hilen) hr

theorem death_rate_added_in_place_witness :
    (([ canada_row ] : Table)[0]? = some canada_row) ∧
      ∃ q : ℚ, (run_charts [ canada_row ])[0]? =
        some { canada_row with death_rate := some q } :=
  ⟨rfl, (death_rate_added_in_place [ canada_row ]).2 0 canada_row rfl⟩

/-! ### The vaccination-comparison claim -/

lemma list_max_eq_none : ∀ {l : List Int}, list_max l = none → l = []
  | [], _ => rfl
  | x :: xs, h => by
      rw [list_max] at h
      rcases hx : list_max xs with _ | m'
      · rw [hx] at h
        exact Option.noConfusion h
      · rw [hx] at h
        exact Option.noConfusion h

lemma list_max_mem : ∀ {l : List Int} {m : Int}, list_max l = some m → m ∈ l
  | [], _, h => by simp [list_max] at h
  | x :: xs, m, h => by
      rw [list_max] at h
      rcases hx : list_max xs with _ | m'
      · rw [hx] at h
        have hxm : x = m := Option.some.inj h
        simp [hxm]
      · rw [hx] at h
        have hm : max x m' = m := Option.some.inj h
        rcases max_choice x m' with hc | hc
        · rw [hc] at hm
          simp [hm]
        · rw [hc] at hm
          exact List.mem_cons_of_mem x (hm ▸ list_max_mem hx)

lemma le_list_max : ∀ {l : List Int} {x m : Int}, x ∈ l → list_max l = some m →
    x ≤ m
  | [], _, _, hx, _ => absurd hx (List.not_mem_nil _)
  | y :: ys, x, m, hx, h => by
      rw [list_max] at h
      rcases hy : list_max ys with _ | m'
      · rw [hy] at h
        have hym : y = m := Option.some.inj h
        rcases List.mem_cons.mp hx with hc | hc
        · omega
        · rw [list_max_eq_none hy] at hc
          exact absurd hc (List.not_mem_nil _)
      · rw [hy] at h
        have hm : max y m' = m := Option.some.inj h
        rcases List.mem_cons.mp hx with hc | hc
        · subst hc
          calc x ≤ max x m' := le_max_left x m'
            _ = m := hm
        · calc x ≤ m' := le_list_max hc hy
            _ ≤ max y m' := le_max_right y m'
            _ = m := hm

lemma list_max_of_ne_nil : ∀ {l : List Int}, l ≠ [] → ∃ m, list_max l = some m
  | [], h => absurd rfl h
  | x :: xs, _ => by
      rw [list_max]
      rcases hx : list_max xs with _ | m'
      · exact ⟨x, rfl⟩
      · exact ⟨max x m', rfl⟩

lemma mem_group_dates {df : Table} {s : Row} {loc : String} {d : Int}
    (hs : s ∈ df) (hl : s.location = loc) (hdate : s.date = some d) :
    d ∈ group_dates df loc := by
  rw [group_dates]
  exact List.mem_filterMap.mpr
    ⟨s, List.mem_filter.mpr ⟨hs, decide_eq_true hl⟩, hdate⟩

/-- What `latest_row` returns, when it returns a row: a row of the table
with the requested location whose date is that location's maximum. -/
lemma latest_row_some_spec {df : Table} {loc : String} {row : Row}
    (hd : ∀ r ∈ df, r.date.isSome) (h : latest_row df loc = some row) :
    row ∈ df ∧ row.location = loc ∧
      ∀ s ∈ df, s.location = loc → dateLEB s.date row.date = true := by
  rw [latest_row] at h
  rcases hm : list_max (group_dates df loc) with _ | m
  · rw [hm] at h
    exact Option.noConfusion h
  · rw [hm] at h
    have hpred := List.find?_some h
    have hmem := List.mem_of_find?_eq_some h
    simp only [Bool.and_eq_true, decide_eq_true_eq] at hpred
    refine ⟨hmem, hpred.1, ?_⟩
    intro s hs hsl
    obtain ⟨d, hdate⟩ := Option.isSome_iff_exists.mp (hd s hs)
    have hdm : d ≤ m := le_list_max (mem_group_dates hs hsl hdate) hm
    rw [hdate, hpred.2]
    simp [dateLEB, hdm]

/-- `latest_row` succeeds for every location that occurs in a table whose
dates are all present. -/
lemma latest_row_isSome {df : Table} {loc : String}
    (hd : ∀ r ∈ df, r.date.isSome) (hmem : ∃ r ∈ df, r.location = loc) :
    ∃ row, latest_row df loc = some row := by
  obtain ⟨r, hr, hl⟩ := hmem
  obtain ⟨d, hdate⟩ := Option.isSome_iff_exists.mp (hd r hr)
  obtain ⟨m, hm⟩ := list_max_of_ne_nil
    (List.ne_nil_of_mem (mem_group_dates hr hl hdate))
  obtain ⟨r', hr', hd'⟩ := List.mem_filterMap.mp (list_max_mem hm)
  obtain ⟨hr'df, hpl⟩ := List.mem_filter.mp hr'
  have hfind : (df.find? (fun r =>
      decide (r.location = loc) && decide (r.date = some m))).isSome :=
    List.find?_isSome.mpr ⟨r', hr'df, by
      simp [of_decide_eq_true hpl, hd']⟩
  obtain ⟨row, hrow⟩ := Option.isSome_iff_exists.mp hfind
  refine ⟨row, ?_⟩
  rw [latest_row, hm]
  exact hrow

lemma mem_distinct_locations {df : Table} {loc : String}
    (h : loc ∈ distinct_locations df) : ∃ r ∈ df, r.location = loc := by
  rw [distinct_locations] at h
  have h1 := List.mem_dedup.mp ((List.mem_insertionSort _).mp h)
  obtain ⟨r, hr, he⟩ := List.mem_map.mp h1
  exact ⟨r, hr, he⟩

lemma filterMap_map_location : ∀ (L : List String) (f : String → Option Row),
    (∀ loc ∈ L, ∃ r, f loc = some r ∧ r.location = loc) →
    (L.filterMap f).map Row.location = L
  | [], _, _ => rfl
  | loc :: L, f, h => by
      obtain ⟨r, hf, hl⟩ := h loc (List.mem_cons_self loc L)
      simp only [List.filterMap_cons, hf, List.map_cons, hl]
      rw [filterMap_map_location L f (fun l hl' => h l (List.mem_cons_of_mem _ hl'))]

/-- C7: on a non-empty table with all dates present (as any non-empty
cleaned table is), `compare_vaccinated_population` selects exactly one row
per distinct location — a row of the table carrying that location's maximum
date — drops the selected rows missing
`people_vaccinated_per_hundred`, renders one bar per surviving location,
and when none survives it skips rendering and reports a message instead of
raising. -/
theorem compare_vaccinated_selection (df : Table)
    (hd : ∀ r ∈ df, r.date.isSome) (_hne : df ≠ []) :
    ((latest_data df).map Row.location = distinct_locations df) ∧
    (distinct_locations df).Nodup ∧
    (∀ r ∈ latest_data df, r ∈ df ∧
      ∀ s ∈ df, s.location = r.location → dateLEB s.date r.date = true) ∧
    (latest_with_vax df = [] →
      compare_vaccinated_population df = Except.error no_vax_msg) ∧
    (latest_with_vax df ≠ [] →
      compare_vaccinated_population df = Except.ok (vax_bars df)) := by
  refine ⟨?_, ?_, ?_, ?_, ?_⟩
  · rw [latest_data]
    apply filterMap_map_location
    intro loc hloc
    obtain ⟨row, hrow⟩ :=
      latest_row_isSome hd (mem_distinct_locations hloc)
    exact ⟨row, hrow, (latest_row_some_spec hd hrow).2.1⟩
  · rw [distinct_locations]
    exact (List.perm_insertionSort _ _).symm.nodup (List.nodup_dedup _)
  · intro r hr
    obtain ⟨loc, _, hf⟩ := List.mem_filterMap.mp hr
    obtain ⟨hmem, hl, hmax⟩ := latest_row_some_spec hd hf
    exact ⟨hmem, fun s hs hsl => hmax s hs (hl ▸ hsl)⟩
  · intro h
    simp [compare_vaccinated_population, List.isEmpty_iff, h]
  · intro h
    simp [compare_vaccinated_population, List.isEmpty_iff, h]

theorem compare_vaccinated_selection_witness :
    (∀ r ∈ ([ canada_row, india_row ] : Table), r.date.isSome) ∧
      (([ canada_row, india_row ] : Table) ≠ []) ∧
      (latest_data [ canada_row, india_row ]).map Row.location =
        distinct_locations [ canada_row, india_row ] :=
  ⟨by decide, by decide,
    (compare_vaccinated_selection [ canada_row, india_row ]
      (by decide) (by decide)).1⟩

end Covid
